import Mathlib

/-!
Verification of the music-match backend core (src/main.py).

The embedding models the MongoDB collections as Lean lists:
  * `sessions_collection` : `List Session` (listening events, insertion order);
  * `users_collection`    : `List UserDoc` (profile store);
  * `chats_collection`    : `List ChatDoc` (chat log, insertion order).
Mongo cursor sorts and Python's `list.sort` are stable; both are modelled by
the stable insertion sort `sortBy` below (for Python's `reverse=True` sort the
input is enumerated first, so the tie-break by original position is explicit).
`to_list(length=n)` on a cursor returns the first `n` documents of the cursor
and is modelled by `List.take n`.  Timestamps (`datetime.utcnow()`) are
modelled as naturals supplied by the server clock.
-/

/-- Stable insertion of `x` into `l`: `x` is placed before the first element
`y` with `le x y`.  When `le` holds on ties this keeps input order. -/
def insertBy (le : α → α → Bool) (x : α) : List α → List α
  | [] => [x]
  | y :: ys => if le x y then x :: y :: ys else y :: insertBy le x ys

/-- Stable insertion sort with boolean comparator `le`. -/
def sortBy (le : α → α → Bool) : List α → List α
  | [] => []
  | x :: xs => insertBy le x (sortBy le xs)

/-! ## Chat log (`POST /chats`, `GET /chats` in src/main.py) -/

/-- A document of `chats_collection`, as inserted by `save_chat`:
`{sender_id, receiver_id, message, timestamp}`. -/
structure ChatDoc where
  sender_id : String
  receiver_id : String
  message : String
  timestamp : Nat
  deriving Repr, DecidableEq

/-- The filter of `get_chats`:
`{"$or": [{sender_id, receiver_id}, {receiver_id, sender_id}]}`. -/
def conversationFilter (sender_id receiver_id : String) (c : ChatDoc) : Bool :=
  (c.sender_id == sender_id && c.receiver_id == receiver_id) ||
  (c.sender_id == receiver_id && c.receiver_id == sender_id)

/-- Comparator for `.sort("timestamp", 1)` (ascending). -/
def tsLe (a b : ChatDoc) : Bool := a.timestamp ≤ b.timestamp

/-- `GET /chats` handler `get_chats` of src/main.py: filter the chat log to
the conversation, sort ascending by timestamp, and return
`to_list(length=100)`, i.e. the first 100 documents of the sorted cursor. -/
def get_chats (store : List ChatDoc) (sender_id receiver_id : String) :
    List ChatDoc :=
  (sortBy tsLe (store.filter (conversationFilter sender_id receiver_id))).take 100

/-- The JSON body of a `POST /chats` request.  `save_chat` reads only
`sender_id`, `receiver_id` and `message` from it; `client_timestamp` stands
for any client-supplied timestamp data, which the handler never reads. -/
structure ChatRequest where
  sender_id : Option String
  receiver_id : Option String
  message : Option String
  client_timestamp : Option Nat
  deriving Repr, DecidableEq

/-- Python falsiness of `data.get(k)` for a string field: `None` (missing
key) or the empty string. -/
def isBlank : Option String → Bool
  | none => true
  | some s => s.isEmpty

/-- Response of `save_chat`: success message, or an HTTP error status with
detail. -/
inductive SaveResponse where
  | ok (message : String)
  | error (status : Nat) (detail : String)
  deriving Repr, DecidableEq

/-- `POST /chats` handler `save_chat` of src/main.py.  `now` is the server
clock (`datetime.utcnow()`) at handling time.  A missing or empty
`sender_id`/`receiver_id`/`message` raises `HTTPException(status_code=400)`
inside the `try`; the generic `except Exception` clause catches it (FastAPI's
`HTTPException` subclasses `Exception`) and re-raises
`HTTPException(status_code=500, detail="Failed to save chat")`, so no
document is inserted and the surfaced status is 500.  Otherwise the document
`{sender_id, receiver_id, message, timestamp: datetime.utcnow()}` is appended
to `chats_collection`. -/
def save_chat (store : List ChatDoc) (req : ChatRequest) (now : Nat) :
    List ChatDoc × SaveResponse :=
  if isBlank req.sender_id || isBlank req.receiver_id || isBlank req.message then
    (store, SaveResponse.error 500 "Failed to save chat")
  else
    (store ++ [{ sender_id := req.sender_id.getD "",
                 receiver_id := req.receiver_id.getD "",
                 message := req.message.getD "",
                 timestamp := now }],
     SaveResponse.ok "Chat saved successfully")

/-! ## Affinity matcher (`GET /match-users` in src/main.py) -/

/-- A document of `sessions_collection` restricted to the fields
`get_user_matches` reads: `user_id` and `artist_name`. -/
structure Session where
  user_id : String
  artist_name : String
  deriving Repr, DecidableEq

/-- A document of `users_collection` restricted to the fields
`get_user_matches` reads; `none` models an absent field. -/
structure UserDoc where
  spotify_id : String
  display_name : Option String
  profile_image : Option String
  deriving Repr, DecidableEq

/-- One entry of the `matches` list returned by `get_user_matches`. -/
structure Match where
  spotify_id : String
  display_name : String
  profile_image : String
  similarity : Nat
  shared_artists : List String
  top_artists : List String
  deriving Repr, DecidableEq

/-- One step of `counts[artist] = counts.get(artist, 0) + 1` on a Python
dict, modelled as an association list in key-insertion order. -/
def bumpCount : List (String × Nat) → String → List (String × Nat)
  | [], a => [(a, 1)]
  | (b, n) :: rest, a =>
    if b == a then (b, n + 1) :: rest else (b, n) :: bumpCount rest a

/-- The artist histogram a `for` loop over a list of artist names builds
(`user_artist_counts` / `other_counts` in `get_user_matches`). -/
def buildCounts (artists : List String) : List (String × Nat) :=
  artists.foldl bumpCount []

/-- Dict lookup `h[a]` (with default 0, only ever used on present keys). -/
def countOf (h : List (String × Nat)) (a : String) : Nat :=
  ((h.find? (fun p => p.1 == a)).map (fun p => p.2)).getD 0

/-- Dict key iteration order (`h.keys()`). -/
def keysOf (h : List (String × Nat)) : List String :=
  h.map (fun p => p.1)

/-- `user_artists_set.intersection(set(artists))` of `get_user_matches`,
as the (duplicate-free) list of self-histogram keys that occur among the
other user's artist names; membership in `set(artists)` is membership in the
list `artists`. -/
def sharedOf (userCounts : List (String × Nat)) (artists : List String) :
    List String :=
  (keysOf userCounts).filter (fun a => a ∈ artists)

/-- `similarity = sum(min(user_artist_counts[a], other_counts[a]) for a in
shared_artists)` of `get_user_matches`. -/
def simOf (userCounts otherCounts : List (String × Nat))
    (shared : List String) : Nat :=
  (shared.map (fun a => min (countOf userCounts a) (countOf otherCounts a))).sum

/-- Comparator of `sorted(other_counts, key=other_counts.get, reverse=True)`:
count descending; `le` holds on ties, so the stable `sortBy` keeps dict
iteration order there. -/
def countLe (x y : String × Nat) : Bool := y.2 ≤ x.2

/-- `top_artists`: artist names sorted by the other user's own histogram
count, descending, truncated to 5. -/
def topArtistsOf (h : List (String × Nat)) : List String :=
  ((sortBy countLe h).map (fun p => p.1)).take 5

/-- First-occurrence deduplication helper; `seen` collects the keys already
emitted. -/
def firstOccurAux : List String → List String → List String
  | _, [] => []
  | seen, a :: rest =>
    if a ∈ seen then firstOccurAux seen rest
    else a :: firstOccurAux (a :: seen) rest

/-- Deterministic model of an unordered collection of distinct keys (Mongo
`$group` keys): the distinct elements in first-occurrence order. -/
def firstOccur (l : List String) : List String :=
  firstOccurAux [] l

/-- The `$group` stage of the `get_user_matches` pipeline: one entry per
distinct `user_id`, carrying the `$push`-ed list of that user's
`artist_name` values in store order (the `$addToSet` artist set is recovered
as membership in that list). -/
def groupByUser (l : List Session) : List (String × List String) :=
  (firstOccur (l.map (fun s => s.user_id))).map
    (fun uid => (uid, (l.filter (fun s => s.user_id == uid)).map
      (fun s => s.artist_name)))

/-- The requesting user's artist names:
`sessions_collection.find({"user_id": spotify_id}).to_list(length=1000)`,
i.e. the first 1000 of the user's session documents. -/
def selfArtistList (store : List Session) (uid : String) : List String :=
  ((store.filter (fun s => s.user_id == uid)).take 1000).map
    (fun s => s.artist_name)

/-- All artist names of user `uid`'s sessions, in store order (what the
aggregation pipeline `$push`-es for one grouped user). -/
def otherArtistList (store : List Session) (uid : String) : List String :=
  (store.filter (fun s => s.user_id == uid)).map (fun s => s.artist_name)

/-- The body of the `for user in other_users` loop of `get_user_matches` for
one grouped user `g = (user_id, pushed artist names)`: skip the user when
`shared_artists` is empty, skip when `users_collection` has no document for
the user, otherwise produce the match entry. -/
def candidateFor (userCounts : List (String × Nat)) (users : List UserDoc)
    (g : String × List String) : Option Match :=
  if (sharedOf userCounts g.2).isEmpty then none
  else
    match users.find? (fun u => u.spotify_id == g.1) with
    | none => none
    | some doc =>
      some { spotify_id := g.1,
             display_name := doc.display_name.getD "Unknown",
             profile_image := doc.profile_image.getD "",
             similarity := simOf userCounts (buildCounts g.2)
               (sharedOf userCounts g.2),
             shared_artists := sharedOf userCounts g.2,
             top_artists := topArtistsOf (buildCounts g.2) }

/-- The unsorted `matches` list of `get_user_matches`: aggregation pipeline
(`$match` on `user_id != spotify_id`, `$group` by user, `to_list(length=100)`)
followed by the candidate loop. -/
def matchCandidates (store : List Session) (users : List UserDoc)
    (uid : String) : List Match :=
  ((groupByUser (store.filter (fun s => !(s.user_id == uid)))).take 100).filterMap
    (candidateFor (buildCounts (selfArtistList store uid)) users)

/-- Comparator of Python's stable
`matches.sort(key=lambda x: x["similarity"], reverse=True)` on
index-enumerated entries: similarity descending, ties by original position
ascending. -/
def matchLe (a b : Nat × Match) : Bool :=
  b.2.similarity < a.2.similarity ||
    (a.2.similarity == b.2.similarity && a.1 ≤ b.1)

/-- `matches.sort(key=lambda x: x["similarity"], reverse=True)`: the stable
descending sort, made explicit on index-enumerated entries. -/
def rankMatches (l : List Match) : List (Nat × Match) :=
  sortBy matchLe l.enum

/-- `GET /match-users` handler `get_user_matches` of src/main.py (the
`matches` list of its response): candidates, stable-sorted by similarity
descending, truncated to the first 10 (`matches[:10]`). -/
def matchUsers (store : List Session) (users : List UserDoc) (uid : String) :
    List Match :=
  ((rankMatches (matchCandidates store users uid)).map Prod.snd).take 10

/-! ## Spec-side definitions (for refinement comparisons) -/

/-- Spec formula: `shared = keys(H_self) ∩ keys(H_other)`. -/
def sharedKeys (h1 h2 : List (String × Nat)) : List String :=
  (keysOf h1).filter (fun a => a ∈ keysOf h2)

/-- Spec formula: `similarity = Σ_{a ∈ shared} min(H_self[a], H_other[a])`. -/
def simSpec (h1 h2 : List (String × Nat)) : Nat :=
  ((sharedKeys h1 h2).map (fun a => min (countOf h1 a) (countOf h2 a))).sum

/-! ## Connection registry (spec §4.2; absent from src/) -/

/-- Modelled from the spec: src/ has no Connection Registry code (the chat
endpoints are plain REST, no live-connection relay is implemented), so the
registry is modelled from spec §4.2: a mapping from conversation key to the
set of live Connections, here an association list from key to a
duplicate-free list of connection handles. -/
abbrev Registry := List (String × List Nat)

/-- Modelled from the spec: `register(key, connection)` adds a connection to
the bucket for `key`, creating the bucket if absent; the bucket is a set, so
adding an already-present connection changes nothing. -/
def regRegister : Registry → String → Nat → Registry
  | [], k, c => [(k, [c])]
  | (k', cs) :: rest, k, c =>
    if k' == k then (k', if c ∈ cs then cs else cs ++ [c]) :: rest
    else (k', cs) :: regRegister rest k c

/-- Modelled from the spec: `unregister(key, connection)` removes a
connection from the bucket for `key`; if the bucket becomes empty it is
removed from the registry; removing from an absent bucket, or removing an
absent connection, is a no-op. -/
def regUnregister : Registry → String → Nat → Registry
  | [], _, _ => []
  | (k', cs) :: rest, k, c =>
    if k' == k then
      if (cs.erase c).isEmpty then rest else (k', cs.erase c) :: rest
    else (k', cs) :: regUnregister rest k c

/-- The bucket registered under conversation key `k`, if any. -/
def findBucket (reg : Registry) (k : String) : Option (List Nat) :=
  (reg.find? (fun p => p.1 == k)).map (fun p => p.2)

/-- Spec invariant: no conversation-key bucket with zero Connections
persists in the registry. -/
def noEmptyBuckets (reg : Registry) : Bool :=
  reg.all (fun p => !p.2.isEmpty)

/-! ## Concrete inputs for witnesses and counterexamples -/

/-- A chat log holding 150 messages of one conversation, timestamps
0,…,149. -/
def chatStore150 : List ChatDoc :=
  (List.range 150).map
    (fun i => { sender_id := "u1", receiver_id := "u2",
                message := "m", timestamp := i })

/-- Spec scenario 1: user X has events `{artistA: 3, artistB: 1}`, user Y
has `{artistA: 2, artistC: 5}`. -/
def sc1Store : List Session :=
  [⟨"X", "artistA"⟩, ⟨"X", "artistA"⟩, ⟨"X", "artistA"⟩, ⟨"X", "artistB"⟩,
   ⟨"Y", "artistA"⟩, ⟨"Y", "artistA"⟩,
   ⟨"Y", "artistC"⟩, ⟨"Y", "artistC"⟩, ⟨"Y", "artistC"⟩, ⟨"Y", "artistC"⟩,
   ⟨"Y", "artistC"⟩]

/-- Profile store holding only user Y. -/
def sc1Users : List UserDoc :=
  [⟨"Y", some "UserY", some "imgY"⟩]

/-- The match entry `get_user_matches` produces for Y on scenario 1. -/
def sc1Match : Match :=
  { spotify_id := "Y", display_name := "UserY", profile_image := "imgY",
    similarity := 2, shared_artists := ["artistA"],
    top_artists := ["artistC", "artistA"] }

/-- Scenario 1 extended by a user Z whose artist set is disjoint from X's. -/
def sc4Store : List Session :=
  sc1Store ++ [⟨"Z", "artistD"⟩, ⟨"Z", "artistD"⟩]

/-! ## Sorting lemmas -/

theorem mem_insertBy (le : α → α → Bool) (x a : α) (l : List α) :
    a ∈ insertBy le x l ↔ a = x ∨ a ∈ l := by
  induction l with
  | nil => simp [insertBy]
  | cons y ys ih =>
    by_cases h : le x y
    · simp [insertBy, h]
    · simp [insertBy, h, ih]
      tauto

theorem perm_insertBy (le : α → α → Bool) (x : α) (l : List α) :
    (insertBy le x l).Perm (x :: l) := by
  induction l with
  | nil => simp [insertBy]
  | cons y ys ih =>
    by_cases h : le x y
    · simp [insertBy, h]
    · rw [insertBy, if_neg h]
      exact (List.Perm.cons y ih).trans (List.Perm.swap x y ys)

theorem perm_sortBy (le : α → α → Bool) (l : List α) :
    (sortBy le l).Perm l := by
  induction l with
  | nil => simp [sortBy]
  | cons x xs ih =>
    exact ((perm_insertBy le x (sortBy le xs)).trans (List.Perm.cons x ih))

theorem pairwise_insertBy (le : α → α → Bool)
    (total : ∀ a b, le a b = true ∨ le b a = true)
    (trans : ∀ a b c, le a b = true → le b c = true → le a c = true)
    (x : α) (l : List α) (h : l.Pairwise (fun a b => le a b = true)) :
    (insertBy le x l).Pairwise (fun a b => le a b = true) := by
  induction l with
  | nil => simp [insertBy]
  | cons y ys ih =>
    rcases h with _ | ⟨hy, hys⟩
    by_cases hxy : le x y
    · rw [insertBy, if_pos hxy]
      refine List.Pairwise.cons ?_ (List.Pairwise.cons hy hys)
      intro a ha
      rcases List.mem_cons.mp ha with h1 | h1
      · rw [h1]; exact hxy
      · exact trans x y a hxy (hy a h1)
    · rw [insertBy, if_neg hxy]
      refine List.Pairwise.cons ?_ (ih hys)
      intro a ha
      rcases (mem_insertBy le x a ys).mp ha with h1 | h1
      · rw [h1]
        rcases total x y with h2 | h2
        · exact absurd h2 hxy
        · exact h2
      · exact hy a h1

theorem pairwise_sortBy (le : α → α → Bool)
    (total : ∀ a b, le a b = true ∨ le b a = true)
    (trans : ∀ a b c, le a b = true → le b c = true → le a c = true)
    (l : List α) :
    (sortBy le l).Pairwise (fun a b => le a b = true) := by
  induction l with
  | nil => simp [sortBy]
  | cons x xs ih => exact pairwise_insertBy le total trans x (sortBy le xs) ih

/-! ## Chat log theorems -/

theorem tsLe_iff (a b : ChatDoc) : tsLe a b = true ↔ a.timestamp ≤ b.timestamp := by
  simp [tsLe]

theorem tsLe_total (a b : ChatDoc) : tsLe a b = true ∨ tsLe b a = true := by
  simp [tsLe]
  omega

theorem tsLe_trans (a b c : ChatDoc) :
    tsLe a b = true → tsLe b c = true → tsLe a c = true := by
  simp [tsLe]
  omega

/-- Claim C1 (counterexample): with 150 messages stored for the conversation
(u1, u2), `get_chats` does not return the 100 most recent entries (it
returns the 100 oldest), so the history operation is not "capped at the most
recent 100 entries". -/
theorem history_most_recent_counterexample :
    ¬(get_chats chatStore150 "u1" "u2" =
      (sortBy tsLe (chatStore150.filter (conversationFilter "u1" "u2"))).drop 50) := by
  decide

/-- Claim C1 (amended): `get_chats` returns the conversation's messages
ordered by timestamp ascending, capped at the first 100 entries in timestamp
order (the 100 oldest); a conversation of at most 100 messages is returned
in full; after 150 stored messages exactly the 100 oldest are returned,
oldest-first (timestamps 0,…,99 of chatStore150). -/
theorem history_oldest_100 :
    (∀ store s r,
      List.Sorted (fun a b : ChatDoc => a.timestamp ≤ b.timestamp)
        (get_chats store s r) ∧
      (get_chats store s r).length ≤ 100 ∧
      (∀ c ∈ get_chats store s r, conversationFilter s r c = true) ∧
      ((store.filter (conversationFilter s r)).length ≤ 100 →
        (get_chats store s r).Perm (store.filter (conversationFilter s r)))) ∧
    (get_chats chatStore150 "u1" "u2").map (fun c => c.timestamp) =
      List.range 100 := by
  constructor
  · intro store s r
    refine ⟨?_, ?_, ?_, ?_⟩
    · have hp := pairwise_sortBy tsLe tsLe_total tsLe_trans
        (store.filter (conversationFilter s r))
      have hq := hp.sublist (List.take_sublist 100 _)
      exact hq.imp (fun h => (tsLe_iff _ _).mp h)
    · simp [get_chats, List.length_take]
    · intro c hc
      have h1 : c ∈ sortBy tsLe (store.filter (conversationFilter s r)) :=
        List.take_subset _ _ hc
      have h2 : c ∈ store.filter (conversationFilter s r) :=
        (perm_sortBy tsLe _).mem_iff.mp h1
      exact (List.mem_filter.mp h2).2
    · intro hlen
      have hl : (sortBy tsLe (store.filter (conversationFilter s r))).length ≤ 100 := by
        rw [(perm_sortBy tsLe _).length_eq]
        exact hlen
      rw [get_chats, List.take_of_length_le hl]
      exact perm_sortBy tsLe _
  · decide

/-- Claim C3: `get_chats` is symmetric in its two user arguments: the `$or`
filter accepts a message for (a, b) exactly when it accepts it for (b, a),
so both queries return the same messages. -/
theorem get_chats_symmetric (store : List ChatDoc) (a b : String) :
    get_chats store a b = get_chats store b a := by
  have h : conversationFilter a b = conversationFilter b a := by
    funext c
    simp only [conversationFilter]
    exact Bool.or_comm _ _
  unfold get_chats
  rw [h]

/-- Claim C8: the timestamp of a stored chat message is assigned by the
server at handling time: `save_chat` is unchanged under any change of the
client-supplied timestamp data, and whenever it extends the store the new
document carries the server clock `now` as its timestamp. -/
theorem save_chat_server_timestamp (store : List ChatDoc) (req : ChatRequest)
    (now : Nat) (t : Option Nat) :
    save_chat store { req with client_timestamp := t } now =
      save_chat store req now ∧
    ((save_chat store req now).1 = store ∨
      (save_chat store req now).1 = store ++
        [{ sender_id := req.sender_id.getD "",
           receiver_id := req.receiver_id.getD "",
           message := req.message.getD "",
           timestamp := now }]) := by
  refine ⟨rfl, ?_⟩
  rcases Bool.eq_false_or_eq_true
      (isBlank req.sender_id || isBlank req.receiver_id || isBlank req.message) with h | h
  · left
    simp [save_chat, h]
  · right
    simp [save_chat, h]

/-- Claim C10: a `POST /chats` body with a missing or empty `sender_id`,
`receiver_id` or `message` inserts nothing into the chat store and surfaces
HTTP status 500 (the internally raised 400 is caught by the generic
exception handler and re-raised as 500). -/
theorem save_chat_missing_fields_500 (store : List ChatDoc) (req : ChatRequest)
    (now : Nat)
    (h : req.sender_id = none ∨ req.sender_id = some "" ∨
         req.receiver_id = none ∨ req.receiver_id = some "" ∨
         req.message = none ∨ req.message = some "") :
    save_chat store req now = (store, SaveResponse.error 500 "Failed to save chat") := by
  have e1 : isBlank (some "") = true := rfl
  have e2 : isBlank none = true := rfl
  have hb : (isBlank req.sender_id || isBlank req.receiver_id ||
      isBlank req.message) = true := by
    rcases h with h | h | h | h | h | h <;> simp [h, e1, e2]
  simp [save_chat, hb]

/-- Claim C10 (witness): a body missing `sender_id` leaves an empty store
unchanged and yields status 500. -/
theorem save_chat_missing_fields_500_witness :
    (ChatRequest.mk none (some "u2") (some "hi") none).sender_id = none ∧
    save_chat [] (ChatRequest.mk none (some "u2") (some "hi") none) 7 =
      ([], SaveResponse.error 500 "Failed to save chat") :=
  ⟨rfl, save_chat_missing_fields_500 [] (ChatRequest.mk none (some "u2") (some "hi") none) 7
    (Or.inl rfl)⟩

/-! ## Matcher helper lemmas -/

theorem mem_keysOf_bumpCount (acc : List (String × Nat)) (b a : String) :
    a ∈ keysOf (bumpCount acc b) ↔ a ∈ keysOf acc ∨ a = b := by
  induction acc with
  | nil => simp [bumpCount, keysOf]
  | cons p rest ih =>
    obtain ⟨c, n⟩ := p
    by_cases h : (c == b) = true
    · have hc : c = b := by simpa using h
      rw [bumpCount, if_pos h]
      simp only [keysOf, List.map_cons, List.mem_cons]
      rw [hc]
      tauto
    · rw [bumpCount, if_neg h]
      simp only [keysOf, List.map_cons, List.mem_cons] at ih ⊢
      rw [ih]
      tauto

theorem mem_keysOf_foldl (l : List String) :
    ∀ acc a, a ∈ keysOf (l.foldl bumpCount acc) ↔ a ∈ keysOf acc ∨ a ∈ l := by
  induction l with
  | nil => intro acc a; simp
  | cons b rest ih =>
    intro acc a
    rw [List.foldl_cons, ih, mem_keysOf_bumpCount]
    simp only [List.mem_cons]
    tauto

theorem mem_keysOf_buildCounts (l : List String) (a : String) :
    a ∈ keysOf (buildCounts l) ↔ a ∈ l := by
  rw [buildCounts, mem_keysOf_foldl]
  simp [keysOf]

theorem sharedOf_eq_sharedKeys (uc : List (String × Nat)) (arts : List String) :
    sharedOf uc arts = sharedKeys uc (buildCounts arts) := by
  unfold sharedOf sharedKeys
  apply List.filter_congr
  intro a _
  simp [decide_eq_decide, mem_keysOf_buildCounts]

theorem mem_firstOccurAux (l : List String) :
    ∀ seen a, a ∈ firstOccurAux seen l ↔ a ∈ l ∧ a ∉ seen := by
  induction l with
  | nil => intro seen a; simp [firstOccurAux]
  | cons b rest ih =>
    intro seen a
    by_cases hb : b ∈ seen
    · rw [firstOccurAux, if_pos hb, ih]
      simp only [List.mem_cons]
      constructor
      · rintro ⟨h1, h2⟩; exact ⟨Or.inr h1, h2⟩
      · rintro ⟨h1 | h1, h2⟩
        · subst h1; exact absurd hb h2
        · exact ⟨h1, h2⟩
    · rw [firstOccurAux, if_neg hb]
      simp only [List.mem_cons, ih]
      by_cases hab : a = b
      · subst hab; simp [hb]
      · simp [hab]

theorem mem_firstOccur (l : List String) (a : String) :
    a ∈ firstOccur l ↔ a ∈ l := by
  rw [firstOccur, mem_firstOccurAux]
  simp

theorem mem_groupByUser (l : List Session) (g : String × List String)
    (hg : g ∈ groupByUser l) :
    g.1 ∈ l.map (fun s => s.user_id) ∧
    g.2 = (l.filter (fun s => s.user_id == g.1)).map (fun s => s.artist_name) := by
  unfold groupByUser at hg
  obtain ⟨uid, hu, rfl⟩ := List.mem_map.mp hg
  exact ⟨(mem_firstOccur _ _).mp hu, rfl⟩

theorem groupByUser_filter_ne (store : List Session) (uid : String)
    (g : String × List String)
    (hg : g ∈ groupByUser (store.filter (fun s => !(s.user_id == uid)))) :
    g.1 ≠ uid := by
  obtain ⟨h1, _⟩ := mem_groupByUser _ _ hg
  obtain ⟨s, hs, heq⟩ := List.mem_map.mp h1
  have h2 := (List.mem_filter.mp hs).2
  rw [← heq]
  simpa using h2

theorem filter_filter_ne (store : List Session) (uid u : String) (h : u ≠ uid) :
    (store.filter (fun s => !(s.user_id == uid))).filter
      (fun s => s.user_id == u) =
    store.filter (fun s => s.user_id == u) := by
  rw [List.filter_filter]
  apply List.filter_congr
  intro s _
  by_cases h1 : s.user_id = u
  · simp [h1, h]
  · simp [h1]

theorem group_snd_eq (store : List Session) (uid : String)
    (g : String × List String)
    (hg : g ∈ groupByUser (store.filter (fun s => !(s.user_id == uid)))) :
    g.2 = otherArtistList store g.1 := by
  obtain ⟨_, h2⟩ := mem_groupByUser _ _ hg
  rw [h2, filter_filter_ne store uid g.1 (groupByUser_filter_ne store uid g hg)]
  rfl

theorem mem_matchUsers_decomp (store : List Session) (users : List UserDoc)
    (uid : String) (m : Match) (hm : m ∈ matchUsers store users uid) :
    ∃ g ∈ (groupByUser (store.filter (fun s => !(s.user_id == uid)))).take 100,
      candidateFor (buildCounts (selfArtistList store uid)) users g = some m := by
  have h1 : m ∈ (rankMatches (matchCandidates store users uid)).map Prod.snd :=
    List.take_subset _ _ hm
  have h2 : ((rankMatches (matchCandidates store users uid)).map Prod.snd).Perm
      ((matchCandidates store users uid).enum.map Prod.snd) :=
    (perm_sortBy matchLe _).map Prod.snd
  rw [List.enum_map_snd] at h2
  have h3 : m ∈ matchCandidates store users uid := h2.mem_iff.mp h1
  obtain ⟨g, hg, hc⟩ := List.mem_filterMap.mp h3
  exact ⟨g, hg, hc⟩

theorem candidateFor_eq_some (uc : List (String × Nat)) (users : List UserDoc)
    (g : String × List String) (m : Match)
    (h : candidateFor uc users g = some m) :
    m.spotify_id = g.1 ∧
    m.shared_artists = sharedOf uc g.2 ∧
    m.similarity = simOf uc (buildCounts g.2) (sharedOf uc g.2) ∧
    (sharedOf uc g.2).isEmpty = false ∧
    (users.find? (fun u => u.spotify_id == g.1)).isSome = true := by
  unfold candidateFor at h
  by_cases he : (sharedOf uc g.2).isEmpty = true
  · rw [if_pos he] at h
    exact absurd h (by simp)
  · rw [if_neg he] at h
    cases hf : users.find? (fun u => u.spotify_id == g.1) with
    | none =>
      rw [hf] at h
      exact absurd h (by simp)
    | some doc =>
      rw [hf] at h
      have hm := Option.some.inj h
      subst hm
      refine ⟨rfl, rfl, rfl, by simpa using he, by simp [hf]⟩

theorem matchLe_iff (a b : Nat × Match) :
    matchLe a b = true ↔
      b.2.similarity < a.2.similarity ∨
        (a.2.similarity = b.2.similarity ∧ a.1 ≤ b.1) := by
  simp [matchLe]

theorem matchLe_total (a b : Nat × Match) :
    matchLe a b = true ∨ matchLe b a = true := by
  rw [matchLe_iff, matchLe_iff]
  omega

theorem matchLe_trans (a b c : Nat × Match) :
    matchLe a b = true → matchLe b c = true → matchLe a c = true := by
  rw [matchLe_iff, matchLe_iff, matchLe_iff]
  omega

/-! ## Matcher claim theorems -/

/-- Claim C2: for every match entry the matcher returns, the reported
similarity is the spec formula `Σ_{a ∈ shared} min(H_self[a], H_other[a])`
over the two users' artist histograms, and the reported shared artists are
`keys(H_self) ∩ keys(H_other)`; on spec scenario 1 this gives similarity 2
and shared artists {artistA} (see the witness). -/
theorem match_similarity_formula (store : List Session) (users : List UserDoc)
    (uid : String) (m : Match) (hm : m ∈ matchUsers store users uid) :
    m.similarity = simSpec (buildCounts (selfArtistList store uid))
      (buildCounts (otherArtistList store m.spotify_id)) ∧
    m.shared_artists = sharedKeys (buildCounts (selfArtistList store uid))
      (buildCounts (otherArtistList store m.spotify_id)) := by
  obtain ⟨g, hg, hc⟩ := mem_matchUsers_decomp store users uid m hm
  obtain ⟨hid, hsh, hsim, _, _⟩ := candidateFor_eq_some _ _ _ _ hc
  have hg2 : g.2 = otherArtistList store g.1 :=
    group_snd_eq store uid g (List.take_subset _ _ hg)
  rw [hid]
  constructor
  · rw [hsim, hg2, sharedOf_eq_sharedKeys]
    rfl
  · rw [hsh, hg2, sharedOf_eq_sharedKeys]

/-- Claim C2 (witness): spec scenario 1 — X has `{artistA:3, artistB:1}`,
Y has `{artistA:2, artistC:5}`; the returned match for Y satisfies the spec
formula and has similarity `min(3,2) = 2` with shared artists
`{artistA}`. -/
theorem match_similarity_formula_witness :
    sc1Match ∈ matchUsers sc1Store sc1Users "X" ∧
    (sc1Match.similarity = simSpec (buildCounts (selfArtistList sc1Store "X"))
        (buildCounts (otherArtistList sc1Store "Y")) ∧
      sc1Match.shared_artists =
        sharedKeys (buildCounts (selfArtistList sc1Store "X"))
          (buildCounts (otherArtistList sc1Store "Y"))) ∧
    sc1Match.similarity = 2 ∧ sc1Match.shared_artists = ["artistA"] :=
  ⟨by decide,
   match_similarity_formula sc1Store sc1Users "X" sc1Match (by decide),
   by decide, by decide⟩

/-- Claim C4: a user whose artist-histogram key set is disjoint from the
requesting user's key set never appears in the match results. -/
theorem disjoint_user_excluded (store : List Session) (users : List UserDoc)
    (uid u : String)
    (hdisj : ∀ a ∈ keysOf (buildCounts (selfArtistList store uid)),
      a ∉ keysOf (buildCounts (otherArtistList store u)))
    (m : Match) (hm : m ∈ matchUsers store users uid) :
    m.spotify_id ≠ u := by
  intro hequ
  obtain ⟨g, hg, hc⟩ := mem_matchUsers_decomp store users uid m hm
  obtain ⟨hid, _, _, hne, _⟩ := candidateFor_eq_some _ _ _ _ hc
  have hg2 : g.2 = otherArtistList store g.1 :=
    group_snd_eq store uid g (List.take_subset _ _ hg)
  have hgu : g.1 = u := hid.symm.trans hequ
  cases hl : sharedOf (buildCounts (selfArtistList store uid)) g.2 with
  | nil => rw [hl] at hne; simp at hne
  | cons a t =>
    have ha : a ∈ sharedOf (buildCounts (selfArtistList store uid)) g.2 := by
      rw [hl]; exact List.mem_cons_self a t
    rw [sharedOf] at ha
    have ha1 : a ∈ keysOf (buildCounts (selfArtistList store uid)) :=
      (List.mem_filter.mp ha).1
    have ha2 : a ∈ g.2 := by
      have := (List.mem_filter.mp ha).2
      simpa using this
    rw [hg2, hgu] at ha2
    exact hdisj a ha1 ((mem_keysOf_buildCounts _ _).mpr ha2)

/-- Claim C4 (witness): on scenario 1 extended by a user Z listening only to
artistD, Z's histogram keys are disjoint from X's, and the match returned
for X is not Z. -/
theorem disjoint_user_excluded_witness :
    (∀ a ∈ keysOf (buildCounts (selfArtistList sc4Store "X")),
      a ∉ keysOf (buildCounts (otherArtistList sc4Store "Z"))) ∧
    sc1Match ∈ matchUsers sc4Store sc1Users "X" ∧
    sc1Match.spotify_id ≠ "Z" :=
  ⟨by decide, by decide,
   disjoint_user_excluded sc4Store sc1Users "X" "Z" (by decide) sc1Match
     (by decide)⟩

/-- Claim C5: the matcher's output has length at most 10 and is sorted
non-increasing by similarity; the sort is the stable descending sort of the
candidate list (a permutation of the index-enumerated candidates, pairwise
ordered by similarity descending with ties broken by original candidate
position), and the output is its first 10 entries. -/
theorem matches_sorted_capped (store : List Session) (users : List UserDoc)
    (uid : String) :
    (matchUsers store users uid).length ≤ 10 ∧
    List.Sorted (fun a b : Match => b.similarity ≤ a.similarity)
      (matchUsers store users uid) ∧
    (rankMatches (matchCandidates store users uid)).Perm
      (matchCandidates store users uid).enum ∧
    List.Pairwise (fun a b : Nat × Match =>
        b.2.similarity < a.2.similarity ∨
          (a.2.similarity = b.2.similarity ∧ a.1 ≤ b.1))
      (rankMatches (matchCandidates store users uid)) ∧
    matchUsers store users uid =
      ((rankMatches (matchCandidates store users uid)).map Prod.snd).take 10 := by
  have hp := pairwise_sortBy matchLe matchLe_total matchLe_trans
    (matchCandidates store users uid).enum
  refine ⟨?_, ?_, ?_, ?_, rfl⟩
  · simp [matchUsers, List.length_take]
  · have hm : ((rankMatches (matchCandidates store users uid)).map
        Prod.snd).Pairwise (fun a b : Match => b.similarity ≤ a.similarity) := by
      refine List.Pairwise.map Prod.snd ?_ hp
      intro a b hab
      rcases (matchLe_iff a b).mp hab with h1 | h1
      · exact Nat.le_of_lt h1
      · exact Nat.le_of_eq h1.1.symm
    exact hm.sublist (List.take_sublist 10 _)
  · exact perm_sortBy matchLe _
  · exact hp.imp (fun h => (matchLe_iff _ _).mp h)

/-- Claim C6: the requesting user never appears in their own match list: the
aggregation pipeline's `$match` stage excludes the requesting user's
sessions, so no candidate carries their id. -/
theorem no_self_match (store : List Session) (users : List UserDoc)
    (uid : String) (m : Match) (hm : m ∈ matchUsers store users uid) :
    m.spotify_id ≠ uid := by
  obtain ⟨g, hg, hc⟩ := mem_matchUsers_decomp store users uid m hm
  obtain ⟨hid, _, _, _, _⟩ := candidateFor_eq_some _ _ _ _ hc
  rw [hid]
  exact groupByUser_filter_ne store uid g (List.take_subset _ _ hg)

/-- Claim C6 (witness): on scenario 1 the match returned for X is not X. -/
theorem no_self_match_witness :
    sc1Match ∈ matchUsers sc1Store sc1Users "X" ∧ sc1Match.spotify_id ≠ "X" :=
  ⟨by decide, no_self_match sc1Store sc1Users "X" sc1Match (by decide)⟩

/-- Claim C7: the matcher never fails on absent data: a requesting user with
no listening history receives the empty list (a valid result), and a user
with listening history but no profile document is silently excluded from the
results. -/
theorem matcher_absence_tolerant (store : List Session) (users : List UserDoc)
    (uid : String) :
    ((store.filter (fun s => s.user_id == uid)).isEmpty = true →
      matchUsers store users uid = []) ∧
    (∀ v, users.find? (fun d => d.spotify_id == v) = none →
      ∀ m ∈ matchUsers store users uid, m.spotify_id ≠ v) := by
  constructor
  · intro h
    have hself : selfArtistList store uid = [] := by
      rw [selfArtistList, List.isEmpty_iff.mp h]
      rfl
    have hcand : matchCandidates store users uid = [] := by
      rw [matchCandidates]
      apply List.filterMap_eq_nil_iff.mpr
      intro g _
      rw [hself]
      rfl
    rw [matchUsers, hcand]
    rfl
  · intro v hv m hm hequ
    obtain ⟨g, hg, hc⟩ := mem_matchUsers_decomp store users uid m hm
    obtain ⟨hid, _, _, _, hsome⟩ := candidateFor_eq_some _ _ _ _ hc
    rw [hid.symm.trans hequ, hv] at hsome
    simp at hsome

/-- Claim C7 (witness): a requester W with no sessions gets the empty list
on scenario 1, and since no profile document exists for id Q, the match
returned for X is not Q. -/
theorem matcher_absence_tolerant_witness :
    (sc1Store.filter (fun s => s.user_id == "W")).isEmpty = true ∧
    matchUsers sc1Store sc1Users "W" = [] ∧
    sc1Users.find? (fun d => d.spotify_id == "Q") = none ∧
    sc1Match ∈ matchUsers sc1Store sc1Users "X" ∧
    sc1Match.spotify_id ≠ "Q" :=
  ⟨by decide, (matcher_absence_tolerant sc1Store sc1Users "W").1 (by decide),
   by decide, by decide,
   (matcher_absence_tolerant sc1Store sc1Users "X").2 "Q" (by decide)
     sc1Match (by decide)⟩

/-! ## Connection registry theorems -/

theorem findBucket_cons (k' : String) (cs : List Nat) (rest : Registry)
    (k : String) :
    findBucket ((k', cs) :: rest) k =
      if (k' == k) = true then some cs else findBucket rest k := by
  by_cases h : (k' == k) = true
  · simp [findBucket, List.find?_cons, h]
  · simp [findBucket, List.find?_cons, h]

/-- Claim C9: registering a Connection under a key whose bucket is absent
and then immediately unregistering it leaves the bucket absent (not
present-but-empty); and both operations preserve the invariant that no
bucket with zero Connections persists in the registry. -/
theorem registry_no_empty_buckets (reg : Registry) (k : String) (c : Nat) :
    (findBucket reg k = none →
      findBucket (regUnregister (regRegister reg k c) k c) k = none) ∧
    (noEmptyBuckets reg = true →
      noEmptyBuckets (regRegister reg k c) = true ∧
      noEmptyBuckets (regUnregister reg k c) = true) := by
  constructor
  · intro h
    induction reg with
    | nil =>
      simp [regRegister, regUnregister, List.erase_cons, findBucket]
    | cons p rest ih =>
      obtain ⟨k', cs⟩ := p
      rw [findBucket_cons] at h
      by_cases hk : (k' == k) = true
      · rw [if_pos hk] at h
        exact absurd h (by simp)
      · rw [if_neg hk] at h
        have hk' : (k' == k) = false := by simpa using hk
        simp only [regRegister, regUnregister, hk', Bool.false_eq_true,
          if_false, cond_false]
        rw [findBucket_cons, if_neg hk]
        exact ih h
  · intro h
    constructor
    · induction reg with
      | nil => simp [regRegister, noEmptyBuckets]
      | cons p rest ih =>
        obtain ⟨k', cs⟩ := p
        rw [noEmptyBuckets, List.all_cons, Bool.and_eq_true] at h
        obtain ⟨h1, h2⟩ := h
        by_cases hk : (k' == k) = true
        · rw [regRegister, if_pos hk, noEmptyBuckets, List.all_cons]
          rw [Bool.and_eq_true]
          refine ⟨?_, h2⟩
          by_cases hc : c ∈ cs
          · simp [hc, h1]
          · simp [hc]
        · rw [regRegister, if_neg hk, noEmptyBuckets, List.all_cons]
          rw [Bool.and_eq_true]
          exact ⟨h1, ih h2⟩
    · induction reg with
      | nil => simp [regUnregister, noEmptyBuckets]
      | cons p rest ih =>
        obtain ⟨k', cs⟩ := p
        rw [noEmptyBuckets, List.all_cons, Bool.and_eq_true] at h
        obtain ⟨h1, h2⟩ := h
        by_cases hk : (k' == k) = true
        · rw [regUnregister, if_pos hk]
          by_cases he : ((cs.erase c).isEmpty) = true
          · rw [if_pos he]
            exact h2
          · rw [if_neg he, noEmptyBuckets, List.all_cons]
            rw [Bool.and_eq_true]
            refine ⟨?_, h2⟩
            simpa using he
        · rw [regUnregister, if_neg hk, noEmptyBuckets, List.all_cons]
          rw [Bool.and_eq_true]
          exact ⟨h1, ih h2⟩

/-- Claim C9 (witness): registering connection 0 under key "u1_u2" in the
empty registry and immediately unregistering it leaves no bucket for
"u1_u2", and the no-empty-buckets invariant holds after each step. -/
theorem registry_no_empty_buckets_witness :
    findBucket ([] : Registry) "u1_u2" = none ∧
    findBucket (regUnregister (regRegister [] "u1_u2" 0) "u1_u2" 0)
      "u1_u2" = none ∧
    noEmptyBuckets (regRegister ([] : Registry) "u1_u2" 0) = true ∧
    noEmptyBuckets (regUnregister ([] : Registry) "u1_u2" 0) = true :=
  ⟨rfl, (registry_no_empty_buckets [] "u1_u2" 0).1 rfl,
   ((registry_no_empty_buckets [] "u1_u2" 0).2 rfl).1,
   ((registry_no_empty_buckets [] "u1_u2" 0).2 rfl).2⟩
